import Mathlib

/-!
Verification of the repository-synchronization orchestrator of `lium`
(`src/cmd/sync.rs`): the `run` entry point and its helpers
`extract_version` and `prepare_repo_paths`.

The embedding is a shallow one.  External collaborators (the filesystem,
the version-lookup services, the underlying `repo` tool) are abstracted
into an `Env` record of oracle functions, each returning `Except String`
exactly where the Rust function returns `anyhow::Result`.  Every external
call additionally emits an `Event`, so each orchestrator function returns
a result paired with the ordered trace of external activity; temporal and
frame claims become statements about that trace.
-/

namespace Lium

/-- Command-line arguments of `lium sync` (struct `Args` in `sync.rs`). -/
structure Args where
  cros : Option String
  arc : Option String
  reference : Option String
  version : String
  force : Bool
  verbose : Bool
  repo : Option String
deriving DecidableEq

/-- One observable external action of the orchestrator, in the order the
Rust code performs them. -/
inductive Event where
  /-- `Path::new(repo).is_dir()` -/
  | isDirCheck (p : String)
  /-- `fs::create_dir_all(repo)` -/
  | createDirAll (p : String)
  /-- `Path::new(&format!("\x7b\x7d/Android.bp", repo)).exists()` -/
  | pathExistsCheck (p : String)
  /-- `get_current_synced_arc_version(repo)` -/
  | queryArcVersion (p : String)
  /-- `get_current_synced_version(repo)` -/
  | queryCrosVersion (p : String)
  /-- `Path::new(repo).read_dir()` -/
  | readDir (p : String)
  /-- `lookup_full_version(version, board)` -/
  | lookupFullVersion (token board : String)
  /-- `lookup_arc_version(version)` -/
  | lookupArcVersion (token : String)
  /-- `get_cros_dir_unchecked(dir)` -/
  | getCrosDir (dir : Option String)
  /-- `get_reference_repo(reference)` -/
  | getReferenceRepo (dir : Option String)
  /-- `repo_sync(path, force, verbose)` -/
  | repoSync (p : String) (force verbose : Bool)
  /-- `setup_arc_repo(repo, version)` -/
  | setupArcRepo (p v : String)
  /-- `setup_cros_repo(repo, version, reference)` -/
  | setupCrosRepo (p v : String) (ref : Option String)
deriving DecidableEq

/-- The distinct failure exits of `run`, one constructor per `bail!` /
`?`-propagation site, tagged with the propagated message. -/
inductive Err where
  /-- `bail!("Please specify either --cros or --arc.")` -/
  | configError
  /-- `bail!("\x7brepo\x7d is not a cros, arc, or empty directory.")` -/
  | ambiguousTree (repo : String)
  /-- `fs::create_dir_all(repo)?` failed -/
  | createDirError (msg : String)
  /-- `lookup_full_version(..)?` failed -/
  | lookupFullVersionError (msg : String)
  /-- `lookup_arc_version(..)?` failed -/
  | lookupArcVersionError (msg : String)
  /-- `get_cros_dir_unchecked(..)?` failed -/
  | getCrosDirError (msg : String)
  /-- `get_current_synced_arc_version(..)?` failed -/
  | arcVersionQueryError (msg : String)
  /-- `read_dir()?` failed -/
  | readDirError (msg : String)
  /-- `get_reference_repo(..)?` failed -/
  | getReferenceError (msg : String)
  /-- `repo_sync(path, ..)?` failed -/
  | repoSyncError (p : String) (msg : String)
  /-- `setup_arc_repo(..)?` failed -/
  | setupArcError (msg : String)
  /-- `setup_cros_repo(..)?` failed -/
  | setupCrosError (msg : String)
deriving DecidableEq

/-- The external world as seen by `sync::run`: filesystem predicates and
the fallible collaborators imported from the `lium` library crate. -/
structure Env where
  isDir : String → Bool
  pathExists : String → Bool
  createDirAll : String → Except String Unit
  readDirNonEmpty : String → Except String Bool
  lookupFullVersion : String → String → Except String String
  lookupArcVersion : String → Except String String
  getCrosDirUnchecked : Option String → Except String String
  getCurrentSyncedArcVersion : String → Except String String
  getCurrentSyncedVersion : String → Except String String
  getReferenceRepo : Option String → Except String (Option String)
  repoSync : String → Bool → Bool → Except String Unit
  setupArcRepo : String → String → Except String Unit
  setupCrosRepo : String → String → Option String → Except String Unit

/-- Sequencing for result-with-trace computations: `?`-style propagation
of the first error, concatenating the traces. -/
def bindE {α β : Type} (x : Except Err α × List Event)
    (f : α → Except Err β × List Event) : Except Err β × List Event :=
  match x with
  | (.error e, t) => (.error e, t)
  | (.ok a, t) => ((f a).1, t ++ (f a).2)

@[simp] theorem bindE_ok {α β : Type} (a : α) (t : List Event)
    (f : α → Except Err β × List Event) :
    bindE (.ok a, t) f = ((f a).1, t ++ (f a).2) := rfl

@[simp] theorem bindE_err {α β : Type} (e : Err) (t : List Event)
    (f : α → Except Err β × List Event) :
    bindE (.error e, t) f = (.error e, t) := rfl

/-- One external call: emit its event and wrap a failure into the
corresponding `Err` constructor. -/
def call {α : Type} (ev : Event) (r : Except String α) (wrap : String → Err) :
    Except Err α × List Event :=
  match r with
  | .ok a => (.ok a, [ev])
  | .error m => (.error (wrap m), [ev])

@[simp] theorem call_ok {α : Type} (ev : Event) (a : α) (wrap : String → Err) :
    call ev (.ok a) wrap = (.ok a, [ev]) := rfl

@[simp] theorem call_err {α : Type} (ev : Event) (m : String) (wrap : String → Err) :
    call (α := α) ev (.error m) wrap = (.error (wrap m), [ev]) := rfl

/-- `extract_version(args, is_arc)` from `sync.rs`: for a cros run a
literal `"tot"` is returned unchanged and anything else is resolved via
`lookup_full_version(version, "eve")`; for an arc run the token goes
through `lookup_arc_version`. -/
def extract_version (env : Env) (args : Args) (is_arc : Bool) :
    Except Err String × List Event :=
  if !is_arc then
    if args.version == "tot" then
      (.ok args.version, [])
    else
      call (.lookupFullVersion args.version "eve")
        (env.lookupFullVersion args.version "eve") .lookupFullVersionError
  else
    call (.lookupArcVersion args.version)
      (env.lookupArcVersion args.version) .lookupArcVersionError

/-- `prepare_repo_paths(repo)` from `sync.rs`: create the directory when
the path is not a directory, otherwise detect an arc tree (marker file
`Android.bp`, then a mandatory arc-version query), then a cros tree
(soft-failing version query), then emptiness; a non-empty unrecognized
directory is a hard `bail!`. -/
def prepare_repo_paths (env : Env) (repo : String) :
    Except Err (Option Bool) × List Event :=
  if !env.isDir repo then
    match env.createDirAll repo with
    | .ok _ => (.ok none, [.isDirCheck repo, .createDirAll repo])
    | .error m => (.error (.createDirError m), [.isDirCheck repo, .createDirAll repo])
  else if env.pathExists (repo ++ "/Android.bp") then
    match env.getCurrentSyncedArcVersion repo with
    | .ok _ => (.ok (some true),
        [.isDirCheck repo, .pathExistsCheck (repo ++ "/Android.bp"), .queryArcVersion repo])
    | .error m => (.error (.arcVersionQueryError m),
        [.isDirCheck repo, .pathExistsCheck (repo ++ "/Android.bp"), .queryArcVersion repo])
  else
    match env.getCurrentSyncedVersion repo with
    | .ok _ => (.ok (some false),
        [.isDirCheck repo, .pathExistsCheck (repo ++ "/Android.bp"), .queryCrosVersion repo])
    | .error _ =>
      match env.readDirNonEmpty repo with
      | .error m => (.error (.readDirError m),
          [.isDirCheck repo, .pathExistsCheck (repo ++ "/Android.bp"),
           .queryCrosVersion repo, .readDir repo])
      | .ok true => (.error (.ambiguousTree repo),
          [.isDirCheck repo, .pathExistsCheck (repo ++ "/Android.bp"),
           .queryCrosVersion repo, .readDir repo])
      | .ok false => (.ok none,
          [.isDirCheck repo, .pathExistsCheck (repo ++ "/Android.bp"),
           .queryCrosVersion repo, .readDir repo])

/-- The `if let Some(reference) = &reference { repo_sync(reference, ..)? }`
step of `run`. -/
def sync_reference (env : Env) (args : Args) (reference : Option String) :
    Except Err Unit × List Event :=
  match reference with
  | none => (.ok (), [])
  | some r =>
    match env.repoSync r args.force args.verbose with
    | .ok _ => (.ok (), [.repoSync r args.force args.verbose])
    | .error m => (.error (.repoSyncError r m), [.repoSync r args.force args.verbose])

/-- The kind-specific preparation step of `run`: `setup_arc_repo` or
`setup_cros_repo` according to the effective kind. -/
def setup_repo (env : Env) (repo version : String) (reference : Option String)
    (is_arc : Bool) : Except Err Unit × List Event :=
  if is_arc then
    match env.setupArcRepo repo version with
    | .ok _ => (.ok (), [.setupArcRepo repo version])
    | .error m => (.error (.setupArcError m), [.setupArcRepo repo version])
  else
    match env.setupCrosRepo repo version reference with
    | .ok _ => (.ok (), [.setupCrosRepo repo version reference])
    | .error m => (.error (.setupCrosError m), [.setupCrosRepo repo version reference])

/-- The trailing `repo_sync(&repo, args.force, args.verbose)` of `run`. -/
def final_sync (env : Env) (args : Args) (repo : String) :
    Except Err Unit × List Event :=
  match env.repoSync repo args.force args.verbose with
  | .ok _ => (.ok (), [.repoSync repo args.force args.verbose])
  | .error m => (.error (.repoSyncError repo m), [.repoSync repo args.force args.verbose])

/-- `run` after the reference lookup: mirror sync, kind-specific setup,
primary sync. -/
def run_from_reference (env : Env) (args : Args) (is_arc2 : Bool)
    (version repo : String) (reference : Option String) :
    Except Err Unit × List Event :=
  bindE (sync_reference env args reference) fun _ =>
  bindE (setup_repo env repo version reference is_arc2) fun _ =>
  final_sync env args repo

/-- `run` after path preparation: `get_reference_repo`, then the rest. -/
def run_from_prepared (env : Env) (args : Args) (is_arc2 : Bool)
    (version repo : String) : Except Err Unit × List Event :=
  bindE (call (.getReferenceRepo args.reference)
      (env.getReferenceRepo args.reference) .getReferenceError)
    (run_from_reference env args is_arc2 version repo)

/-- `run` after the repo path is known: `prepare_repo_paths(&repo)?` whose
detection result overrides the caller's kind via `.unwrap_or(is_arc)`. -/
def run_from_repo (env : Env) (args : Args) (is_arc : Bool)
    (version repo : String) : Except Err Unit × List Event :=
  bindE (prepare_repo_paths env repo) fun det =>
  run_from_prepared env args (det.getD is_arc) version repo

/-- `run` after version extraction: `get_cros_dir_unchecked` on the
selected target option, then the rest. -/
def run_from_version (env : Env) (args : Args) (is_arc : Bool)
    (version : String) : Except Err Unit × List Event :=
  bindE (call (.getCrosDir (if is_arc then args.arc else args.cros))
      (env.getCrosDirUnchecked (if is_arc then args.arc else args.cros))
      .getCrosDirError)
    (run_from_repo env args is_arc version)

/-- `run` after the kind selector has been validated. -/
def run_after_kind (env : Env) (args : Args) (is_arc : Bool) :
    Except Err Unit × List Event :=
  bindE (extract_version env args is_arc) (run_from_version env args is_arc)

/-- `sync::run(args)`: validate that exactly one of `--cros`/`--arc` is
given (otherwise `bail!` with no external activity), then proceed. -/
def run (env : Env) (args : Args) : Except Err Unit × List Event :=
  match args.cros, args.arc with
  | some _, none => run_after_kind env args false
  | none, some _ => run_after_kind env args true
  | _, _ => (.error .configError, [])

/-- The kind selector computed by the opening `match` of `run`:
`some false` for a cros run, `some true` for an arc run, `none` when the
selection is invalid (neither or both targets given). -/
def kind_selected (args : Args) : Option Bool :=
  match args.cros, args.arc with
  | some _, none => some false
  | none, some _ => some true
  | _, _ => none

/-- Events that mutate external state (directory creation, tree
preparation, sync); all remaining events are read-only inspection. -/
def Event.isMutation : Event → Bool
  | .createDirAll _ => true
  | .repoSync _ _ _ => true
  | .setupArcRepo _ _ => true
  | .setupCrosRepo _ _ _ => true
  | _ => false

/-- Events of the Version Resolver component. -/
def Event.isResolver : Event → Bool
  | .lookupFullVersion _ _ => true
  | .lookupArcVersion _ => true
  | _ => false

/-- Events of the Repository Type Detector component
(`prepare_repo_paths`). -/
def Event.isDetector : Event → Bool
  | .isDirCheck _ => true
  | .createDirAll _ => true
  | .pathExistsCheck _ => true
  | .queryArcVersion _ => true
  | .queryCrosVersion _ => true
  | .readDir _ => true
  | _ => false

/-- Events of the Sync Executor component (kind-specific preparation and
`repo_sync` invocations). -/
def Event.isExecutor : Event → Bool
  | .repoSync _ _ _ => true
  | .setupArcRepo _ _ => true
  | .setupCrosRepo _ _ _ => true
  | _ => false

/-- `e` touches the primary target `repo`: kind-specific preparation of
it or a sync invocation on it. -/
def Event.touches (repo : String) : Event → Bool
  | .setupArcRepo p _ => p == repo
  | .setupCrosRepo p _ _ => p == repo
  | .repoSync p _ _ => p == repo
  | _ => false

/-- Every event of class `p` in `L` occurs strictly before every event of
class `q`: `L` splits into a prefix free of `q`-events and a suffix free
of `p`-events. -/
def precedes (L : List Event) (p q : Event → Bool) : Prop :=
  ∃ A B, L = A ++ B ∧ (∀ e ∈ A, q e = false) ∧ (∀ e ∈ B, p e = false)

/-! ### Concrete environments and arguments, used to instantiate the
hypotheses of the theorems below on explicit inputs. -/

/-- An environment in which every external collaborator succeeds and the
target path is an existing directory with no markers readable. -/
def okEnv : Env where
  isDir := fun _ => true
  pathExists := fun _ => false
  createDirAll := fun _ => .ok ()
  readDirNonEmpty := fun _ => .ok false
  lookupFullVersion := fun t _ => .ok ("15437.0.0-" ++ t)
  lookupArcVersion := fun t => .ok ("master-arc-dev-" ++ t)
  getCrosDirUnchecked := fun d => .ok (d.getD "/cwd")
  getCurrentSyncedArcVersion := fun _ => .ok "rvc"
  getCurrentSyncedVersion := fun _ => .error "no version file"
  getReferenceRepo := fun d => .ok d
  repoSync := fun _ _ _ => .ok ()
  setupArcRepo := fun _ _ => .ok ()
  setupCrosRepo := fun _ _ _ => .ok ()

/-- `okEnv` with an `Android.bp` marker present but a failing ARC version
query. -/
def arcQueryFailEnv : Env :=
  { okEnv with
    pathExists := fun _ => true
    getCurrentSyncedArcVersion := fun _ => .error "no arc version" }

/-- `okEnv` with an `Android.bp` marker present and a succeeding ARC
version query. -/
def arcTreeEnv : Env :=
  { okEnv with pathExists := fun _ => true }

/-- `okEnv` where the target is an existing ChromeOS tree (readable synced
version, no ARC marker). -/
def crosTreeEnv : Env :=
  { okEnv with getCurrentSyncedVersion := fun _ => .ok "15301.0.0" }

/-- `okEnv` where the target path is not a directory and creating it
succeeds. -/
def freshEnv : Env :=
  { okEnv with isDir := fun _ => false }

/-- `okEnv` where the target path is not a directory (e.g. a regular file
sits at that path) and recursive directory creation fails. -/
def fileInTheWayEnv : Env :=
  { okEnv with
    isDir := fun _ => false
    createDirAll := fun _ => .error "File exists (os error 17)" }

/-- `okEnv` where the target directory is non-empty but carries neither
an ARC marker nor a readable ChromeOS version. -/
def ambiguousEnv : Env :=
  { okEnv with readDirNonEmpty := fun _ => .ok true }

/-- `okEnv` where syncing the reference mirror at `/mirror` fails. -/
def mirrorFailEnv : Env :=
  { okEnv with
    repoSync := fun p _ _ =>
      if p == "/mirror" then .error "mirror sync failed" else .ok () }

/-- `okEnv` where the ChromeOS version lookup rejects the token. -/
def lookupFailEnv : Env :=
  { okEnv with lookupFullVersion := fun _ _ => .error "unknown version" }

/-- Arguments of a cros run against `/t` with version token `13816.10.0`. -/
def argsCros : Args :=
  ⟨some "/t", none, none, "13816.10.0", false, false, none⟩

/-- Arguments of a cros run against `/t` with version token `tot`. -/
def argsCrosTot : Args :=
  ⟨some "/t", none, none, "tot", false, false, none⟩

/-- Arguments of an arc run against `/t` with version token `rvc`. -/
def argsArc : Args :=
  ⟨none, some "/t", none, "rvc", false, false, none⟩

/-- Cros-run arguments with a reference mirror at `/mirror`. -/
def argsCrosRef : Args :=
  ⟨some "/t", none, some "/mirror", "13816.10.0", false, false, none⟩

/-- Arguments with both `--cros` and `--arc` given. -/
def argsBoth : Args :=
  ⟨some "/t", some "/u", none, "13816.10.0", false, false, none⟩

/-- Arguments with neither `--cros` nor `--arc` given. -/
def argsNeither : Args :=
  ⟨none, none, none, "13816.10.0", false, false, none⟩

/-! ### Stage lemmas: how each stage of `run` reduces, and what kinds of
events each stage's trace can contain. -/

theorem call_trace {α : Type} (ev : Event) (r : Except String α)
    (wrap : String → Err) : (call ev r wrap).2 = [ev] := by
  unfold call
  rcases r with m | a <;> rfl

theorem run_selected (env : Env) (args : Args) (k : Bool)
    (h : kind_selected args = some k) :
    run env args = run_after_kind env args k := by
  unfold run kind_selected at *
  rcases hc : args.cros with _ | c <;> rcases ha : args.arc with _ | a <;>
    rw [hc, ha] at h <;> simp_all

theorem run_not_selected (env : Env) (args : Args)
    (h : kind_selected args = none) :
    run env args = (.error .configError, []) := by
  unfold run kind_selected at *
  rcases hc : args.cros with _ | c <;> rcases ha : args.arc with _ | a <;>
    rw [hc, ha] at h <;> simp_all

theorem extract_version_tot (env : Env) (args : Args)
    (h : args.version = "tot") :
    extract_version env args false = (.ok args.version, []) := by
  unfold extract_version
  simp [h]

theorem extract_version_cros_lookup (env : Env) (args : Args)
    (h : args.version ≠ "tot") :
    extract_version env args false =
      call (.lookupFullVersion args.version "eve")
        (env.lookupFullVersion args.version "eve") .lookupFullVersionError := by
  unfold extract_version
  simp [h]

theorem extract_version_arc (env : Env) (args : Args) :
    extract_version env args true =
      call (.lookupArcVersion args.version)
        (env.lookupArcVersion args.version) .lookupArcVersionError := by
  unfold extract_version
  simp

theorem extract_version_trace (env : Env) (args : Args) (k : Bool) :
    ∀ e ∈ (extract_version env args k).2,
      (∃ t b, e = Event.lookupFullVersion t b) ∨ ∃ t, e = Event.lookupArcVersion t := by
  intro e he
  rcases k with _ | _
  · by_cases hv : args.version = "tot"
    · rw [extract_version_tot env args hv] at he
      simp at he
    · rw [extract_version_cros_lookup env args hv, call_trace] at he
      simp at he
      exact Or.inl ⟨args.version, "eve", he⟩
  · rw [extract_version_arc, call_trace] at he
    simp at he
    exact Or.inr ⟨args.version, he⟩

theorem prepare_repo_paths_trace (env : Env) (repo : String) :
    ∀ e ∈ (prepare_repo_paths env repo).2, e.isDetector = true := by
  intro e he
  unfold prepare_repo_paths at he
  rcases hd : env.isDir repo with _ | _ <;> rw [hd] at he
  · rcases hc : env.createDirAll repo with m | u <;> rw [hc] at he <;>
      simp at he <;> rcases he with h | h <;> subst h <;> rfl
  · simp only [Bool.not_true, if_false] at he
    rcases hp : env.pathExists (repo ++ "/Android.bp") with _ | _ <;>
      rw [hp] at he <;> simp at he
    · rcases hv : env.getCurrentSyncedVersion repo with m | u <;> rw [hv] at he
      · rcases hr : env.readDirNonEmpty repo with m | b <;> rw [hr] at he <;>
          [skip; rcases b with _ | _] <;> simp at he <;>
          rcases he with h | h | h | h <;> subst h <;> rfl
      · simp at he
        rcases he with h | h | h <;> subst h <;> rfl
    · rcases ha : env.getCurrentSyncedArcVersion repo with m | u <;>
        rw [ha] at he <;> simp at he <;>
        rcases he with h | h | h <;> subst h <;> rfl

theorem sync_reference_trace (env : Env) (args : Args) (ref : Option String) :
    ∀ e ∈ (sync_reference env args ref).2,
      e = Event.repoSync (ref.getD "") args.force args.verbose := by
  intro e he
  rcases ref with _ | r
  · simp [sync_reference] at he
  · rcases hs : env.repoSync r args.force args.verbose with m | u <;>
      simp [sync_reference, hs] at he <;> simp [he]

theorem setup_repo_trace (env : Env) (repo version : String)
    (ref : Option String) (k : Bool) :
    ∀ e ∈ (setup_repo env repo version ref k).2,
      e = Event.setupArcRepo repo version ∨
        e = Event.setupCrosRepo repo version ref := by
  intro e he
  unfold setup_repo at he
  rcases k with _ | _ <;> simp at he
  · rcases hs : env.setupCrosRepo repo version ref with m | u <;>
      rw [hs] at he <;> simp at he <;> simp [he]
  · rcases hs : env.setupArcRepo repo version with m | u <;>
      rw [hs] at he <;> simp at he <;> simp [he]

theorem final_sync_trace (env : Env) (args : Args) (repo : String) :
    ∀ e ∈ (final_sync env args repo).2,
      e = Event.repoSync repo args.force args.verbose := by
  intro e he
  unfold final_sync at he
  rcases hs : env.repoSync repo args.force args.verbose with m | u <;>
    rw [hs] at he <;> simp at he <;> simp [he]

theorem prepare_creates_ok (env : Env) (repo : String)
    (hd : env.isDir repo = false) (hc : env.createDirAll repo = .ok ()) :
    prepare_repo_paths env repo =
      (.ok none, [.isDirCheck repo, .createDirAll repo]) := by
  simp [prepare_repo_paths, hd, hc]

theorem prepare_creates_err (env : Env) (repo m : String)
    (hd : env.isDir repo = false) (hc : env.createDirAll repo = .error m) :
    prepare_repo_paths env repo =
      (.error (.createDirError m), [.isDirCheck repo, .createDirAll repo]) := by
  simp [prepare_repo_paths, hd, hc]

theorem prepare_detects_arc (env : Env) (repo pv : String)
    (hd : env.isDir repo = true)
    (hm : env.pathExists (repo ++ "/Android.bp") = true)
    (hq : env.getCurrentSyncedArcVersion repo = .ok pv) :
    prepare_repo_paths env repo =
      (.ok (some true),
       [.isDirCheck repo, .pathExistsCheck (repo ++ "/Android.bp"),
        .queryArcVersion repo]) := by
  simp [prepare_repo_paths, hd, hm, hq]

theorem prepare_arc_query_fails (env : Env) (repo m : String)
    (hd : env.isDir repo = true)
    (hm : env.pathExists (repo ++ "/Android.bp") = true)
    (hq : env.getCurrentSyncedArcVersion repo = .error m) :
    prepare_repo_paths env repo =
      (.error (.arcVersionQueryError m),
       [.isDirCheck repo, .pathExistsCheck (repo ++ "/Android.bp"),
        .queryArcVersion repo]) := by
  simp [prepare_repo_paths, hd, hm, hq]

theorem prepare_detects_cros (env : Env) (repo pv : String)
    (hd : env.isDir repo = true)
    (hm : env.pathExists (repo ++ "/Android.bp") = false)
    (hv : env.getCurrentSyncedVersion repo = .ok pv) :
    prepare_repo_paths env repo =
      (.ok (some false),
       [.isDirCheck repo, .pathExistsCheck (repo ++ "/Android.bp"),
        .queryCrosVersion repo]) := by
  simp [prepare_repo_paths, hd, hm, hv]

theorem prepare_empty (env : Env) (repo m0 : String)
    (hd : env.isDir repo = true)
    (hm : env.pathExists (repo ++ "/Android.bp") = false)
    (hv : env.getCurrentSyncedVersion repo = .error m0)
    (hr : env.readDirNonEmpty repo = .ok false) :
    prepare_repo_paths env repo =
      (.ok none,
       [.isDirCheck repo, .pathExistsCheck (repo ++ "/Android.bp"),
        .queryCrosVersion repo, .readDir repo]) := by
  simp [prepare_repo_paths, hd, hm, hv, hr]

theorem prepare_ambiguous (env : Env) (repo m0 : String)
    (hd : env.isDir repo = true)
    (hm : env.pathExists (repo ++ "/Android.bp") = false)
    (hv : env.getCurrentSyncedVersion repo = .error m0)
    (hr : env.readDirNonEmpty repo = .ok true) :
    prepare_repo_paths env repo =
      (.error (.ambiguousTree repo),
       [.isDirCheck repo, .pathExistsCheck (repo ++ "/Android.bp"),
        .queryCrosVersion repo, .readDir repo]) := by
  simp [prepare_repo_paths, hd, hm, hv, hr]

theorem sync_reference_some_ok (env : Env) (args : Args) (r : String)
    (hs : env.repoSync r args.force args.verbose = .ok ()) :
    sync_reference env args (some r) =
      (.ok (), [.repoSync r args.force args.verbose]) := by
  simp [sync_reference, hs]

theorem sync_reference_some_err (env : Env) (args : Args) (r m : String)
    (hs : env.repoSync r args.force args.verbose = .error m) :
    sync_reference env args (some r) =
      (.error (.repoSyncError r m), [.repoSync r args.force args.verbose]) := by
  simp [sync_reference, hs]

theorem bindE_trace_subset {α β : Type} (x : Except Err α × List Event)
    (f : α → Except Err β × List Event) :
    ∀ e ∈ (bindE x f).2, e ∈ x.2 ∨ ∃ a, e ∈ (f a).2 := by
  intro e he
  rcases x with ⟨res, t⟩
  rcases res with e0 | a
  · exact Or.inl he
  · simp only [bindE_ok, List.mem_append] at he
    rcases he with h | h
    · exact Or.inl h
    · exact Or.inr ⟨a, h⟩

theorem run_from_reference_trace (env : Env) (args : Args) (k2 : Bool)
    (version repo : String) (ref : Option String) :
    ∀ e ∈ (run_from_reference env args k2 version repo ref).2,
      e.isExecutor = true := by
  intro e he
  unfold run_from_reference at he
  rcases bindE_trace_subset _ _ e he with h | ⟨a, h⟩
  · have := sync_reference_trace env args ref e h
    subst this; rfl
  · rcases bindE_trace_subset _ _ e h with h2 | ⟨b, h2⟩
    · rcases setup_repo_trace env repo version ref k2 e h2 with h3 | h3 <;>
        subst h3 <;> rfl
    · have := final_sync_trace env args repo e h2
      subst this; rfl

theorem sync_reference_none (env : Env) (args : Args) :
    sync_reference env args none = (.ok (), []) := rfl

theorem setup_repo_trace_arc (env : Env) (repo version : String)
    (ref : Option String) :
    (setup_repo env repo version ref true).2 = [.setupArcRepo repo version] := by
  unfold setup_repo
  rcases hs : env.setupArcRepo repo version with m | u <;> simp [hs]

theorem setup_repo_trace_cros (env : Env) (repo version : String)
    (ref : Option String) :
    (setup_repo env repo version ref false).2 =
      [.setupCrosRepo repo version ref] := by
  unfold setup_repo
  rcases hs : env.setupCrosRepo repo version ref with m | u <;> simp [hs]

theorem final_sync_trace_eq (env : Env) (args : Args) (repo : String) :
    (final_sync env args repo).2 =
      [.repoSync repo args.force args.verbose] := by
  unfold final_sync
  rcases hs : env.repoSync repo args.force args.verbose with m | u <;> simp [hs]

theorem run_after_kind_ok (env : Env) (args : Args) (k : Bool)
    (v : String) (tx : List Event)
    (hx : extract_version env args k = (.ok v, tx)) :
    run_after_kind env args k =
      ((run_from_version env args k v).1,
       tx ++ (run_from_version env args k v).2) := by
  unfold run_after_kind
  rw [hx, bindE_ok]

theorem run_after_kind_err (env : Env) (args : Args) (k : Bool)
    (e0 : Err) (tx : List Event)
    (hx : extract_version env args k = (.error e0, tx)) :
    run_after_kind env args k = (.error e0, tx) := by
  unfold run_after_kind
  rw [hx, bindE_err]

theorem run_from_version_ok (env : Env) (args : Args) (k : Bool)
    (v repo : String)
    (hdir : env.getCrosDirUnchecked (if k then args.arc else args.cros) = .ok repo) :
    run_from_version env args k v =
      ((run_from_repo env args k v repo).1,
       [.getCrosDir (if k then args.arc else args.cros)] ++
         (run_from_repo env args k v repo).2) := by
  unfold run_from_version
  rw [hdir, call_ok, bindE_ok]

theorem run_from_version_err (env : Env) (args : Args) (k : Bool)
    (v m : String)
    (hdir : env.getCrosDirUnchecked (if k then args.arc else args.cros) = .error m) :
    run_from_version env args k v =
      (.error (.getCrosDirError m),
       [.getCrosDir (if k then args.arc else args.cros)]) := by
  unfold run_from_version
  rw [hdir, call_err, bindE_err]

theorem run_from_repo_ok (env : Env) (args : Args) (k : Bool)
    (v repo : String) (det : Option Bool) (tp : List Event)
    (hp : prepare_repo_paths env repo = (.ok det, tp)) :
    run_from_repo env args k v repo =
      ((run_from_prepared env args (det.getD k) v repo).1,
       tp ++ (run_from_prepared env args (det.getD k) v repo).2) := by
  unfold run_from_repo
  rw [hp, bindE_ok]

theorem run_from_repo_err (env : Env) (args : Args) (k : Bool)
    (v repo : String) (pe : Err) (tp : List Event)
    (hp : prepare_repo_paths env repo = (.error pe, tp)) :
    run_from_repo env args k v repo = (.error pe, tp) := by
  unfold run_from_repo
  rw [hp, bindE_err]

theorem run_from_prepared_ref (env : Env) (args : Args) (k2 : Bool)
    (v repo : String) (ref : Option String)
    (href : env.getReferenceRepo args.reference = .ok ref) :
    run_from_prepared env args k2 v repo =
      ((run_from_reference env args k2 v repo ref).1,
       [.getReferenceRepo args.reference] ++
         (run_from_reference env args k2 v repo ref).2) := by
  unfold run_from_prepared
  rw [href, call_ok, bindE_ok]

theorem run_from_prepared_err (env : Env) (args : Args) (k2 : Bool)
    (v repo m : String)
    (href : env.getReferenceRepo args.reference = .error m) :
    run_from_prepared env args k2 v repo =
      (.error (.getReferenceError m), [.getReferenceRepo args.reference]) := by
  unfold run_from_prepared
  rw [href, call_err, bindE_err]

theorem run_from_reference_none (env : Env) (args : Args) (k2 : Bool)
    (v repo : String) :
    run_from_reference env args k2 v repo none =
      bindE (setup_repo env repo v none k2) fun _ =>
        final_sync env args repo := rfl

theorem run_from_reference_trace_none (env : Env) (args : Args) (k2 : Bool)
    (v repo : String) :
    (run_from_reference env args k2 v repo none).2 =
      (setup_repo env repo v none k2).2 ∨
    (run_from_reference env args k2 v repo none).2 =
      (setup_repo env repo v none k2).2 ++
        [Event.repoSync repo args.force args.verbose] := by
  rw [run_from_reference_none]
  rcases hs : setup_repo env repo v none k2 with ⟨sres, ts⟩
  rcases sres with e0 | u
  · left
    rw [bindE_err]
  · right
    rw [bindE_ok]
    simp [final_sync_trace_eq]

theorem run_from_reference_mirror_err (env : Env) (args : Args) (k2 : Bool)
    (v repo r m : String)
    (hms : env.repoSync r args.force args.verbose = .error m) :
    run_from_reference env args k2 v repo (some r) =
      (.error (.repoSyncError r m),
       [.repoSync r args.force args.verbose]) := by
  unfold run_from_reference
  rw [sync_reference_some_err env args r m hms, bindE_err]

theorem run_from_reference_mirror_ok (env : Env) (args : Args) (k2 : Bool)
    (v repo r : String)
    (hms : env.repoSync r args.force args.verbose = .ok ()) :
    ∃ B, (run_from_reference env args k2 v repo (some r)).2 =
      Event.repoSync r args.force args.verbose :: B := by
  unfold run_from_reference
  rw [sync_reference_some_ok env args r hms, bindE_ok]
  exact ⟨_, rfl⟩

theorem detector_not_resolver (e : Event) (h : e.isDetector = true) :
    e.isResolver = false := by
  cases e <;> first | rfl | exact absurd h (by simp [Event.isDetector])

theorem detector_not_executor (e : Event) (h : e.isDetector = true) :
    e.isExecutor = false := by
  cases e <;> first | rfl | exact absurd h (by simp [Event.isDetector])

theorem detector_not_touches (repo : String) (e : Event)
    (h : e.isDetector = true) : e.touches repo = false := by
  cases e <;> first | rfl | exact absurd h (by simp [Event.isDetector])

theorem executor_not_detector (e : Event) (h : e.isExecutor = true) :
    e.isDetector = false := by
  cases e <;> first | rfl | exact absurd h (by simp [Event.isExecutor])

theorem executor_not_resolver (e : Event) (h : e.isExecutor = true) :
    e.isResolver = false := by
  cases e <;> first | rfl | exact absurd h (by simp [Event.isExecutor])

theorem extract_trace_not_detector (env : Env) (args : Args) (k : Bool) :
    ∀ e ∈ (extract_version env args k).2, e.isDetector = false := by
  intro e he
  rcases extract_version_trace env args k e he with ⟨t, b, h⟩ | ⟨t, h⟩ <;>
    subst h <;> rfl

theorem extract_trace_not_executor (env : Env) (args : Args) (k : Bool) :
    ∀ e ∈ (extract_version env args k).2, e.isExecutor = false := by
  intro e he
  rcases extract_version_trace env args k e he with ⟨t, b, h⟩ | ⟨t, h⟩ <;>
    subst h <;> rfl

theorem extract_trace_not_touches (env : Env) (args : Args) (k : Bool)
    (repo : String) :
    ∀ e ∈ (extract_version env args k).2, e.touches repo = false := by
  intro e he
  rcases extract_version_trace env args k e he with ⟨t, b, h⟩ | ⟨t, h⟩ <;>
    subst h <;> rfl

/-! ### Claims -/

/-- C6: whenever neither or both of the cros and arc targets are
specified, `run` fails with the configuration error, and its trace of
external activity is empty — the error is reported before any filesystem
or network access. -/
theorem C6_config_error_before_any_io (env : Env) (args : Args)
    (h : (args.cros = none ∧ args.arc = none) ∨
      (args.cros ≠ none ∧ args.arc ≠ none)) :
    run env args = (.error .configError, []) := by
  apply run_not_selected
  unfold kind_selected
  rcases h with ⟨h1, h2⟩ | ⟨h1, h2⟩
  · rw [h1, h2]
  · rcases hc : args.cros with _ | c
    · exact absurd hc h1
    rcases ha : args.arc with _ | a
    · exact absurd ha h2
    rfl

/-- Witness for C6 on the concrete invalid selections. -/
theorem C6_config_error_before_any_io_witness :
    run okEnv argsBoth = (.error .configError, []) ∧
    run okEnv argsNeither = (.error .configError, []) :=
  ⟨C6_config_error_before_any_io okEnv argsBoth
      (Or.inr ⟨by decide, by decide⟩),
   C6_config_error_before_any_io okEnv argsNeither
      (Or.inl ⟨rfl, rfl⟩)⟩

/-- C7: for a ChromeOS-kind run, the token `tot` is returned unchanged by
version resolution without consulting the lookup service; any other token
is resolved through `lookup_full_version` against the fixed board `eve`;
a lookup failure is fatal: the whole run stops with that error having
performed no other external activity (no fallback). -/
theorem C7_cros_version_resolution (env : Env) (args : Args) :
    (args.version = "tot" →
      extract_version env args false = (.ok args.version, []))
    ∧ (∀ v, args.version ≠ "tot" →
        env.lookupFullVersion args.version "eve" = .ok v →
        extract_version env args false =
          (.ok v, [.lookupFullVersion args.version "eve"]))
    ∧ (∀ m, args.version ≠ "tot" →
        env.lookupFullVersion args.version "eve" = .error m →
        extract_version env args false =
          (.error (.lookupFullVersionError m),
           [.lookupFullVersion args.version "eve"])
        ∧ (kind_selected args = some false →
            run env args =
              (.error (.lookupFullVersionError m),
               [.lookupFullVersion args.version "eve"]))) := by
  refine ⟨fun h => extract_version_tot env args h, fun v h hv => ?_, fun m h hm => ?_⟩
  · rw [extract_version_cros_lookup env args h, hv, call_ok]
  · have hx : extract_version env args false =
        (.error (.lookupFullVersionError m),
         [.lookupFullVersion args.version "eve"]) := by
      rw [extract_version_cros_lookup env args h, hm, call_err]
    refine ⟨hx, fun hsel => ?_⟩
    rw [run_selected env args false hsel]
    unfold run_after_kind
    rw [hx, bindE_err]

/-- Witness for C7: `tot` passes through on a concrete run, and a
concrete unknown token fails the whole run with the lookup error. -/
theorem C7_cros_version_resolution_witness :
    extract_version okEnv argsCrosTot false = (.ok "tot", []) ∧
    run lookupFailEnv argsCros =
      (.error (.lookupFullVersionError "unknown version"),
       [.lookupFullVersion "13816.10.0" "eve"]) :=
  ⟨(C7_cros_version_resolution okEnv argsCrosTot).1 rfl,
   (((C7_cros_version_resolution lookupFailEnv argsCros).2.2 "unknown version"
      (by decide) rfl).2 rfl)⟩

/-- C10: when the target path is not a directory (for instance a regular
file sits at that path), `prepare_repo_paths` takes its not-present
branch: it attempts recursive directory creation and surfaces the
creation failure — the path is neither classified as an existing tree nor
rejected with the ambiguous-tree error, and the whole run fails with the
creation error. -/
theorem C10_non_directory_creation_error (env : Env) (repo m : String)
    (hd : env.isDir repo = false) (hc : env.createDirAll repo = .error m) :
    prepare_repo_paths env repo =
      (.error (.createDirError m), [.isDirCheck repo, .createDirAll repo])
    ∧ (prepare_repo_paths env repo).1 ≠ .error (.ambiguousTree repo)
    ∧ (∀ d, (prepare_repo_paths env repo).1 ≠ .ok d)
    ∧ (∀ args k v tv, kind_selected args = some k →
        extract_version env args k = (.ok v, tv) →
        env.getCrosDirUnchecked (if k then args.arc else args.cros) = .ok repo →
        (run env args).1 = .error (.createDirError m)) := by
  have hp := prepare_creates_err env repo m hd hc
  refine ⟨hp, by simp [hp], by simp [hp], fun args k v tv hsel hx hdir => ?_⟩
  rw [run_selected env args k hsel]
  unfold run_after_kind run_from_version run_from_repo
  rw [hx, bindE_ok, hdir, call_ok, bindE_ok, hp, bindE_err]

/-- C8: a non-empty target directory carrying neither the ARC marker nor
a readable ChromeOS version marker fails the run with the ambiguous-tree
error, and the run's trace contains no Sync-Executor event: no
preparation of and no sync attempt on that directory. -/
theorem C8_ambiguous_tree_no_sync (env : Env) (args : Args) (k : Bool)
    (repo v m0 : String) (tv : List Event)
    (hsel : kind_selected args = some k)
    (hx : extract_version env args k = (.ok v, tv))
    (hdir : env.getCrosDirUnchecked (if k then args.arc else args.cros) = .ok repo)
    (hd : env.isDir repo = true)
    (hm : env.pathExists (repo ++ "/Android.bp") = false)
    (hv : env.getCurrentSyncedVersion repo = .error m0)
    (hne : env.readDirNonEmpty repo = .ok true) :
    (run env args).1 = .error (.ambiguousTree repo)
    ∧ ∀ e ∈ (run env args).2, e.isExecutor = false := by
  have hp := prepare_ambiguous env repo m0 hd hm hv hne
  have hrun : run env args =
      (.error (.ambiguousTree repo),
       tv ++ ([.getCrosDir (if k then args.arc else args.cros)] ++
         [.isDirCheck repo, .pathExistsCheck (repo ++ "/Android.bp"),
          .queryCrosVersion repo, .readDir repo])) := by
    rw [run_selected env args k hsel]
    unfold run_after_kind run_from_version run_from_repo
    rw [hx, bindE_ok, hdir, call_ok, bindE_ok, hp, bindE_err]
  refine ⟨by rw [hrun], ?_⟩
  intro e he
  rw [hrun] at he
  simp only [List.mem_append, List.mem_cons, List.mem_singleton,
    List.not_mem_nil, or_false] at he
  rcases he with h | h | h | h | h | h
  · have htv := extract_trace_not_executor env args k
    rw [hx] at htv
    exact htv e h
  all_goals subst h; rfl

/-- Witness for C8 on the concrete ambiguous directory. -/
theorem C8_ambiguous_tree_no_sync_witness :
    (run ambiguousEnv argsCros).1 = .error (.ambiguousTree "/t") :=
  (C8_ambiguous_tree_no_sync ambiguousEnv argsCros false "/t"
    "15437.0.0-13816.10.0" "no version file"
    [.lookupFullVersion "13816.10.0" "eve"] rfl rfl rfl rfl rfl rfl rfl).1

/-- C1: the claim that an ARC-version query failure is advisory is false:
on a directory carrying the ARC marker whose version query fails, the
whole run aborts with exactly that query error. -/
theorem C1_counterexample :
    arcQueryFailEnv.isDir "/t" = true ∧
    arcQueryFailEnv.pathExists ("/t" ++ "/Android.bp") = true ∧
    arcQueryFailEnv.getCurrentSyncedArcVersion "/t" = .error "no arc version" ∧
    (run arcQueryFailEnv argsCros).1 =
      .error (.arcVersionQueryError "no arc version") :=
  ⟨rfl, rfl, rfl, rfl⟩

/-- C1 (amended): when the target directory exists with the ARC marker
file at its root, `prepare_repo_paths` classifies it as an existing ARC
tree and queries its currently-synced ARC version; a query failure is not
advisory — it propagates and is fatal to the run. -/
theorem C1_arc_marker_query_fatal (env : Env) (repo : String)
    (hd : env.isDir repo = true)
    (hm : env.pathExists (repo ++ "/Android.bp") = true) :
    (∀ pv, env.getCurrentSyncedArcVersion repo = .ok pv →
      (prepare_repo_paths env repo).1 = .ok (some true))
    ∧ (∀ m, env.getCurrentSyncedArcVersion repo = .error m →
      (prepare_repo_paths env repo).1 = .error (.arcVersionQueryError m)
      ∧ ∀ args k v tv, kind_selected args = some k →
          extract_version env args k = (.ok v, tv) →
          env.getCrosDirUnchecked (if k then args.arc else args.cros) = .ok repo →
          (run env args).1 = .error (.arcVersionQueryError m)) := by
  constructor
  · intro pv hq
    rw [prepare_detects_arc env repo pv hd hm hq]
  · intro m hq
    have hp := prepare_arc_query_fails env repo m hd hm hq
    refine ⟨by rw [hp], fun args k v tv hsel hx hdir => ?_⟩
    rw [run_selected env args k hsel]
    unfold run_after_kind run_from_version run_from_repo
    rw [hx, bindE_ok, hdir, call_ok, bindE_ok, hp, bindE_err]

/-- Witness for C1 (amended) on concrete ARC trees, with the query
succeeding and failing. -/
theorem C1_arc_marker_query_fatal_witness :
    (prepare_repo_paths arcTreeEnv "/t").1 = .ok (some true) ∧
    (run arcQueryFailEnv argsArc).1 =
      .error (.arcVersionQueryError "no arc version") :=
  ⟨(C1_arc_marker_query_fatal arcTreeEnv "/t" rfl rfl).1 "rvc" rfl,
   ((C1_arc_marker_query_fatal arcQueryFailEnv "/t" rfl rfl).2
      "no arc version" rfl).2 argsArc true "master-arc-dev-rvc"
      [.lookupArcVersion "rvc"] rfl rfl rfl⟩

/-- Any directory-creation event in a `prepare_repo_paths` trace is on the
prepared path itself, taken only when that path was not a directory. -/
theorem prepare_createDirAll_mem (env : Env) (q p : String)
    (h : Event.createDirAll p ∈ (prepare_repo_paths env q).2) :
    p = q ∧ env.isDir q = false := by
  unfold prepare_repo_paths at h
  rcases hd : env.isDir q with _ | _ <;> rw [hd] at h
  · rcases hc : env.createDirAll q with m | u <;> rw [hc] at h <;>
      simp at h <;> exact ⟨h, rfl⟩
  · simp only [Bool.not_true, if_false] at h
    rcases hp : env.pathExists (q ++ "/Android.bp") with _ | _ <;>
      rw [hp] at h <;> simp at h
    · rcases hv : env.getCurrentSyncedVersion q with m | pv <;> rw [hv] at h
      · rcases hr : env.readDirNonEmpty q with m2 | b <;>
          [skip; rcases b with _ | _] <;> rw [hr] at h <;> simp at h
      · simp at h
    · rcases hq : env.getCurrentSyncedArcVersion q with m | pv <;>
        rw [hq] at h <;> simp at h

/-- C2: the claim that the detector performs only read-only inspection is
false: on a not-yet-present target, the emitted directory creation is an
event of `prepare_repo_paths` itself. -/
theorem C2_counterexample :
    (prepare_repo_paths freshEnv "/t").2.filter Event.isMutation =
      [.createDirAll "/t"] := by
  decide

/-- C2 (amended): the single directory-creation side effect happens
inside `prepare_repo_paths` itself — its trace's only mutating event is
the creation of the target when the path is not a directory, all its
other activity being read-only inspection; and any directory creation
performed by a whole run targets a path that was not a directory. -/
theorem C2_creation_inside_detector (env : Env) :
    (∀ repo, (prepare_repo_paths env repo).2.filter Event.isMutation =
      if env.isDir repo then [] else [Event.createDirAll repo])
    ∧ ∀ args p, Event.createDirAll p ∈ (run env args).2 →
        env.isDir p = false := by
  constructor
  · intro repo
    unfold prepare_repo_paths
    rcases hd : env.isDir repo with _ | _
    · rcases hc : env.createDirAll repo with m | u <;>
        simp [hd, hc, Event.isMutation]
    · rcases hp : env.pathExists (repo ++ "/Android.bp") with _ | _
      · rcases hv : env.getCurrentSyncedVersion repo with m | pv
        · rcases hr : env.readDirNonEmpty repo with m2 | b <;>
            [skip; rcases b with _ | _] <;>
            simp [hd, hp, hv, hr, Event.isMutation]
        · simp [hd, hp, hv, Event.isMutation]
      · rcases hq : env.getCurrentSyncedArcVersion repo with m | pv <;>
          simp [hd, hp, hq, Event.isMutation]
  · intro args p h
    unfold run at h
    rcases hc : args.cros with _ | c <;> rcases ha : args.arc with _ | a <;>
      rw [hc, ha] at h <;> try simp at h
    all_goals {
      unfold run_after_kind at h
      rcases bindE_trace_subset _ _ _ h with h1 | ⟨v, h1⟩
      · rcases extract_version_trace _ _ _ _ h1 with ⟨t, b, h2⟩ | ⟨t, h2⟩ <;>
          simp at h2
      · unfold run_from_version at h1
        rcases bindE_trace_subset _ _ _ h1 with h2 | ⟨repo, h2⟩
        · rw [call_trace] at h2
          simp at h2
        · unfold run_from_repo at h2
          rcases bindE_trace_subset _ _ _ h2 with h3 | ⟨det, h3⟩
          · obtain ⟨h4, h5⟩ := prepare_createDirAll_mem _ _ _ h3
            rw [h4]
            exact h5
          · unfold run_from_prepared at h3
            rcases bindE_trace_subset _ _ _ h3 with h4 | ⟨ref, h4⟩
            · rw [call_trace] at h4
              simp at h4
            · have := run_from_reference_trace _ _ _ _ _ _ _ h4
              simp [Event.isExecutor] at this
    }

/-- Witness for C2 (amended) on the concrete not-yet-present target. -/
theorem C2_creation_inside_detector_witness :
    (prepare_repo_paths freshEnv "/t").2.filter Event.isMutation =
      (if freshEnv.isDir "/t" then [] else [Event.createDirAll "/t"]) ∧
    freshEnv.isDir "/t" = false :=
  ⟨(C2_creation_inside_detector freshEnv).1 "/t",
   (C2_creation_inside_detector freshEnv).2 argsCros "/t" (by decide)⟩

/-- C4: the detected kind — not the caller's `--cros`/`--arc` selection
`k` — chooses which kind-specific preparation runs: an existing ARC tree
forces ARC preparation and an existing ChromeOS tree forces ChromeOS
preparation whatever the caller selected, while for a not-present or
empty target the caller's originally selected kind is kept. -/
theorem C4_detected_kind_overrides (env : Env) (args : Args) (k : Bool)
    (repo v : String) (tx : List Event)
    (hsel : kind_selected args = some k)
    (hx : extract_version env args k = (.ok v, tx))
    (hdir : env.getCrosDirUnchecked (if k then args.arc else args.cros) = .ok repo)
    (href : env.getReferenceRepo args.reference = .ok none) :
    (env.isDir repo = true → env.pathExists (repo ++ "/Android.bp") = true →
      ∀ pv, env.getCurrentSyncedArcVersion repo = .ok pv →
      Event.setupArcRepo repo v ∈ (run env args).2 ∧
      ∀ p x rf, Event.setupCrosRepo p x rf ∉ (run env args).2)
    ∧ (env.isDir repo = true → env.pathExists (repo ++ "/Android.bp") = false →
      ∀ pv, env.getCurrentSyncedVersion repo = .ok pv →
      Event.setupCrosRepo repo v none ∈ (run env args).2 ∧
      ∀ p x, Event.setupArcRepo p x ∉ (run env args).2)
    ∧ (env.isDir repo = false → env.createDirAll repo = .ok () →
      (k = false → Event.setupCrosRepo repo v none ∈ (run env args).2 ∧
        ∀ p x, Event.setupArcRepo p x ∉ (run env args).2)
      ∧ (k = true → Event.setupArcRepo repo v ∈ (run env args).2 ∧
        ∀ p x rf, Event.setupCrosRepo p x rf ∉ (run env args).2))
    ∧ (env.isDir repo = true → env.pathExists (repo ++ "/Android.bp") = false →
      ∀ m0, env.getCurrentSyncedVersion repo = .error m0 →
      env.readDirNonEmpty repo = .ok false →
      (k = false → Event.setupCrosRepo repo v none ∈ (run env args).2 ∧
        ∀ p x, Event.setupArcRepo p x ∉ (run env args).2)
      ∧ (k = true → Event.setupArcRepo repo v ∈ (run env args).2 ∧
        ∀ p x rf, Event.setupCrosRepo p x rf ∉ (run env args).2)) := by
  have htv := extract_version_trace env args k
  rw [hx] at htv
  refine ⟨?_, ?_, ?_, ?_⟩
  · -- existing ARC tree: ARC preparation regardless of `k`
    intro hd hm pv hq
    have hP := prepare_detects_arc env repo pv hd hm hq
    have ht2 : (run env args).2 =
        tx ++ ([.getCrosDir (if k then args.arc else args.cros)] ++
          ([.isDirCheck repo, .pathExistsCheck (repo ++ "/Android.bp"),
            .queryArcVersion repo] ++
            ([.getReferenceRepo args.reference] ++
              (run_from_reference env args true v repo none).2))) := by
      rw [run_selected env args k hsel, run_after_kind_ok env args k v tx hx,
        run_from_version_ok env args k v repo hdir,
        run_from_repo_ok env args k v repo (some true) _ hP]
      simp only [Option.getD_some]
      rw [run_from_prepared_ref env args true v repo none href]
    constructor
    · rw [ht2]
      rcases run_from_reference_trace_none env args true v repo with h | h <;>
        rw [h, setup_repo_trace_arc] <;> simp
    · intro p x rf hmem
      rw [ht2] at hmem
      rcases run_from_reference_trace_none env args true v repo with h | h <;>
        rw [h, setup_repo_trace_arc] at hmem <;> simp at hmem <;>
        rcases htv _ hmem with ⟨t, b, h2⟩ | ⟨t, h2⟩ <;> simp at h2
  · -- existing ChromeOS tree: ChromeOS preparation regardless of `k`
    intro hd hm pv hv
    have hP := prepare_detects_cros env repo pv hd hm hv
    have ht2 : (run env args).2 =
        tx ++ ([.getCrosDir (if k then args.arc else args.cros)] ++
          ([.isDirCheck repo, .pathExistsCheck (repo ++ "/Android.bp"),
            .queryCrosVersion repo] ++
            ([.getReferenceRepo args.reference] ++
              (run_from_reference env args false v repo none).2))) := by
      rw [run_selected env args k hsel, run_after_kind_ok env args k v tx hx,
        run_from_version_ok env args k v repo hdir,
        run_from_repo_ok env args k v repo (some false) _ hP]
      simp only [Option.getD_some]
      rw [run_from_prepared_ref env args false v repo none href]
    constructor
    · rw [ht2]
      rcases run_from_reference_trace_none env args false v repo with h | h <;>
        rw [h, setup_repo_trace_cros] <;> simp
    · intro p x hmem
      rw [ht2] at hmem
      rcases run_from_reference_trace_none env args false v repo with h | h <;>
        rw [h, setup_repo_trace_cros] at hmem <;> simp at hmem <;>
        rcases htv _ hmem with ⟨t, b, h2⟩ | ⟨t, h2⟩ <;> simp at h2
  · -- not present: directory created, caller's kind kept
    intro hd hc
    have hP := prepare_creates_ok env repo hd hc
    have ht2 : (run env args).2 =
        tx ++ ([.getCrosDir (if k then args.arc else args.cros)] ++
          ([.isDirCheck repo, .createDirAll repo] ++
            ([.getReferenceRepo args.reference] ++
              (run_from_reference env args k v repo none).2))) := by
      rw [run_selected env args k hsel, run_after_kind_ok env args k v tx hx,
        run_from_version_ok env args k v repo hdir,
        run_from_repo_ok env args k v repo none _ hP]
      simp only [Option.getD_none]
      rw [run_from_prepared_ref env args k v repo none href]
    constructor
    · rintro rfl
      constructor
      · rw [ht2]
        rcases run_from_reference_trace_none env args false v repo with h | h <;>
          rw [h, setup_repo_trace_cros] <;> simp
      · intro p x hmem
        rw [ht2] at hmem
        rcases run_from_reference_trace_none env args false v repo with h | h <;>
          rw [h, setup_repo_trace_cros] at hmem <;> simp at hmem <;>
          rcases htv _ hmem with ⟨t, b, h2⟩ | ⟨t, h2⟩ <;> simp at h2
    · rintro rfl
      constructor
      · rw [ht2]
        rcases run_from_reference_trace_none env args true v repo with h | h <;>
          rw [h, setup_repo_trace_arc] <;> simp
      · intro p x rf hmem
        rw [ht2] at hmem
        rcases run_from_reference_trace_none env args true v repo with h | h <;>
          rw [h, setup_repo_trace_arc] at hmem <;> simp at hmem <;>
          rcases htv _ hmem with ⟨t, b, h2⟩ | ⟨t, h2⟩ <;> simp at h2
  · -- empty directory: caller's kind kept
    intro hd hm m0 hv hr
    have hP := prepare_empty env repo m0 hd hm hv hr
    have ht2 : (run env args).2 =
        tx ++ ([.getCrosDir (if k then args.arc else args.cros)] ++
          ([.isDirCheck repo, .pathExistsCheck (repo ++ "/Android.bp"),
            .queryCrosVersion repo, .readDir repo] ++
            ([.getReferenceRepo args.reference] ++
              (run_from_reference env args k v repo none).2))) := by
      rw [run_selected env args k hsel, run_after_kind_ok env args k v tx hx,
        run_from_version_ok env args k v repo hdir,
        run_from_repo_ok env args k v repo none _ hP]
      simp only [Option.getD_none]
      rw [run_from_prepared_ref env args k v repo none href]
    constructor
    · rintro rfl
      constructor
      · rw [ht2]
        rcases run_from_reference_trace_none env args false v repo with h | h <;>
          rw [h, setup_repo_trace_cros] <;> simp
      · intro p x hmem
        rw [ht2] at hmem
        rcases run_from_reference_trace_none env args false v repo with h | h <;>
          rw [h, setup_repo_trace_cros] at hmem <;> simp at hmem <;>
          rcases htv _ hmem with ⟨t, b, h2⟩ | ⟨t, h2⟩ <;> simp at h2
    · rintro rfl
      constructor
      · rw [ht2]
        rcases run_from_reference_trace_none env args true v repo with h | h <;>
          rw [h, setup_repo_trace_arc] <;> simp
      · intro p x rf hmem
        rw [ht2] at hmem
        rcases run_from_reference_trace_none env args true v repo with h | h <;>
          rw [h, setup_repo_trace_arc] at hmem <;> simp at hmem <;>
          rcases htv _ hmem with ⟨t, b, h2⟩ | ⟨t, h2⟩ <;> simp at h2

/-- Witness for C4: with the caller selecting cros on a concrete ARC
tree, ARC preparation runs. -/
theorem C4_detected_kind_overrides_witness :
    Event.setupArcRepo "/t" "15437.0.0-13816.10.0" ∈
      (run arcTreeEnv argsCros).2 :=
  ((C4_detected_kind_overrides arcTreeEnv argsCros false "/t"
      "15437.0.0-13816.10.0" [.lookupFullVersion "13816.10.0" "eve"]
      rfl rfl rfl rfl).1 rfl rfl "rvc" rfl).1

/-- C9: version resolution uses the caller's originally selected kind,
so whenever the detector overrides that kind, the version handed to the
kind-specific preparation was resolved under the other kind's namespace:
a cros caller reaching an ARC tree hands the ChromeOS-resolved (board
`eve`) version to the ARC preparation with the ARC namespace never
consulted, and an arc caller reaching a ChromeOS tree hands the
ARC-resolved version to the ChromeOS preparation with the ChromeOS
namespace never consulted. -/
theorem C9_resolution_uses_original_kind (env : Env) (args : Args)
    (repo : String)
    (hd : env.isDir repo = true)
    (href : env.getReferenceRepo args.reference = .ok none) :
    (∀ c v pv, args.cros = some c → args.arc = none → args.version ≠ "tot" →
      env.lookupFullVersion args.version "eve" = .ok v →
      env.getCrosDirUnchecked args.cros = .ok repo →
      env.pathExists (repo ++ "/Android.bp") = true →
      env.getCurrentSyncedArcVersion repo = .ok pv →
      Event.setupArcRepo repo v ∈ (run env args).2 ∧
      Event.lookupFullVersion args.version "eve" ∈ (run env args).2 ∧
      ∀ t, Event.lookupArcVersion t ∉ (run env args).2)
    ∧ (∀ a v pv, args.cros = none → args.arc = some a →
      env.lookupArcVersion args.version = .ok v →
      env.getCrosDirUnchecked args.arc = .ok repo →
      env.pathExists (repo ++ "/Android.bp") = false →
      env.getCurrentSyncedVersion repo = .ok pv →
      Event.setupCrosRepo repo v none ∈ (run env args).2 ∧
      Event.lookupArcVersion args.version ∈ (run env args).2 ∧
      ∀ t b, Event.lookupFullVersion t b ∉ (run env args).2) := by
  constructor
  · intro c v pv hc ha hvne hlv hdir hm hq
    have hsel : kind_selected args = some false := by
      unfold kind_selected
      rw [hc, ha]
    have hx : extract_version env args false =
        (.ok v, [.lookupFullVersion args.version "eve"]) := by
      rw [extract_version_cros_lookup env args hvne, hlv, call_ok]
    have hdir' : env.getCrosDirUnchecked
        (if false then args.arc else args.cros) = .ok repo := hdir
    have hP := prepare_detects_arc env repo pv hd hm hq
    have ht2 : (run env args).2 =
        [Event.lookupFullVersion args.version "eve"] ++
          ([.getCrosDir (if false then args.arc else args.cros)] ++
            ([.isDirCheck repo, .pathExistsCheck (repo ++ "/Android.bp"),
              .queryArcVersion repo] ++
              ([.getReferenceRepo args.reference] ++
                (run_from_reference env args true v repo none).2))) := by
      rw [run_selected env args false hsel,
        run_after_kind_ok env args false v _ hx,
        run_from_version_ok env args false v repo hdir',
        run_from_repo_ok env args false v repo (some true) _ hP]
      simp only [Option.getD_some]
      rw [run_from_prepared_ref env args true v repo none href]
    refine ⟨?_, ?_, ?_⟩
    · rw [ht2]
      rcases run_from_reference_trace_none env args true v repo with h | h <;>
        rw [h, setup_repo_trace_arc] <;> simp
    · rw [ht2]
      simp
    · intro t hmem
      rw [ht2] at hmem
      rcases run_from_reference_trace_none env args true v repo with h | h <;>
        rw [h, setup_repo_trace_arc] at hmem <;> simp at hmem
  · intro a v pv hc ha hlv hdir hm hv
    have hsel : kind_selected args = some true := by
      unfold kind_selected
      rw [hc, ha]
    have hx : extract_version env args true =
        (.ok v, [.lookupArcVersion args.version]) := by
      rw [extract_version_arc, hlv, call_ok]
    have hdir' : env.getCrosDirUnchecked
        (if true then args.arc else args.cros) = .ok repo := hdir
    have hP := prepare_detects_cros env repo pv hd hm hv
    have ht2 : (run env args).2 =
        [Event.lookupArcVersion args.version] ++
          ([.getCrosDir (if true then args.arc else args.cros)] ++
            ([.isDirCheck repo, .pathExistsCheck (repo ++ "/Android.bp"),
              .queryCrosVersion repo] ++
              ([.getReferenceRepo args.reference] ++
                (run_from_reference env args false v repo none).2))) := by
      rw [run_selected env args true hsel,
        run_after_kind_ok env args true v _ hx,
        run_from_version_ok env args true v repo hdir',
        run_from_repo_ok env args true v repo (some false) _ hP]
      simp only [Option.getD_some]
      rw [run_from_prepared_ref env args false v repo none href]
    refine ⟨?_, ?_, ?_⟩
    · rw [ht2]
      rcases run_from_reference_trace_none env args false v repo with h | h <;>
        rw [h, setup_repo_trace_cros] <;> simp
    · rw [ht2]
      simp
    · intro t b hmem
      rw [ht2] at hmem
      rcases run_from_reference_trace_none env args false v repo with h | h <;>
        rw [h, setup_repo_trace_cros] at hmem <;> simp at hmem

/-- Witness for C9: a cros selection reaching a concrete ARC tree syncs
it to the ChromeOS-resolved version, never consulting the ARC namespace. -/
theorem C9_resolution_uses_original_kind_witness :
    Event.setupArcRepo "/t" "15437.0.0-13816.10.0" ∈ (run arcTreeEnv argsCros).2 ∧
    ∀ t, Event.lookupArcVersion t ∉ (run arcTreeEnv argsCros).2 :=
  ⟨((C9_resolution_uses_original_kind arcTreeEnv argsCros "/t" rfl rfl).1
      "/t" "15437.0.0-13816.10.0" "rvc" rfl rfl (by decide) rfl rfl rfl
      rfl).1,
   ((C9_resolution_uses_original_kind arcTreeEnv argsCros "/t" rfl rfl).1
      "/t" "15437.0.0-13816.10.0" "rvc" rfl rfl (by decide) rfl rfl rfl
      rfl).2.2⟩

/-- C3: when a reference mirror is in use, the mirror is synced strictly
before any event touching the primary target, and a mirror sync failure
is fatal: the run ends in an error with no kind-specific preparation of
and no sync invocation on the target anywhere in its trace. -/
theorem C3_mirror_before_target_and_fatal (env : Env) (args : Args)
    (k : Bool) (repo r : String)
    (hsel : kind_selected args = some k)
    (hdir : env.getCrosDirUnchecked (if k then args.arc else args.cros) = .ok repo)
    (href : env.getReferenceRepo args.reference = .ok (some r))
    (hner : r ≠ repo) :
    ((∃ e ∈ (run env args).2, e.touches repo = true) →
      env.repoSync r args.force args.verbose = .ok () ∧
      ∃ A B, (run env args).2 =
          A ++ Event.repoSync r args.force args.verbose :: B ∧
        ∀ e ∈ A, e.touches repo = false)
    ∧ (∀ m, env.repoSync r args.force args.verbose = .error m →
      (∃ er, (run env args).1 = .error er) ∧
      ∀ e ∈ (run env args).2, e.touches repo = false) := by
  rw [run_selected env args k hsel]
  rcases hx : extract_version env args k with ⟨xres, tx⟩
  have htx : ∀ e ∈ tx, e.touches repo = false := by
    have h1 := extract_trace_not_touches env args k repo
    rw [hx] at h1
    exact h1
  rcases xres with e0 | v
  · rw [run_after_kind_err env args k e0 tx hx]
    constructor
    · rintro ⟨e, he, ht⟩
      rw [htx e he] at ht
      exact absurd ht (by simp)
    · exact fun m hs => ⟨⟨e0, rfl⟩, htx⟩
  · rw [run_after_kind_ok env args k v tx hx,
      run_from_version_ok env args k v repo hdir]
    rcases hp : prepare_repo_paths env repo with ⟨pres, tp⟩
    have htp : ∀ e ∈ tp, e.touches repo = false := by
      have h1 := prepare_repo_paths_trace env repo
      rw [hp] at h1
      exact fun e he => detector_not_touches repo e (h1 e he)
    rcases pres with pe | det
    · rw [run_from_repo_err env args k v repo pe tp hp]
      have hall : ∀ e ∈ tx ++
          ([Event.getCrosDir (if k then args.arc else args.cros)] ++ tp),
          e.touches repo = false := by
        intro e he
        rcases List.mem_append.mp he with h1 | h1
        · exact htx e h1
        rcases List.mem_append.mp h1 with h2 | h2
        · rw [List.mem_singleton] at h2
          subst h2
          rfl
        · exact htp e h2
      constructor
      · rintro ⟨e, he, ht⟩
        rw [hall e he] at ht
        exact absurd ht (by simp)
      · exact fun m hs => ⟨⟨pe, rfl⟩, hall⟩
    · rw [run_from_repo_ok env args k v repo det tp hp,
        run_from_prepared_ref env args (det.getD k) v repo (some r) href]
      rcases hms : env.repoSync r args.force args.verbose with m0 | u
      · rw [run_from_reference_mirror_err env args (det.getD k) v repo r m0 hms]
        have hall : ∀ e ∈ tx ++
            ([Event.getCrosDir (if k then args.arc else args.cros)] ++
              (tp ++ ([Event.getReferenceRepo args.reference] ++
                [Event.repoSync r args.force args.verbose]))),
            e.touches repo = false := by
          intro e he
          rcases List.mem_append.mp he with h1 | h1
          · exact htx e h1
          rcases List.mem_append.mp h1 with h2 | h2
          · rw [List.mem_singleton] at h2
            subst h2
            rfl
          rcases List.mem_append.mp h2 with h3 | h3
          · exact htp e h3
          rcases List.mem_append.mp h3 with h4 | h4
          · rw [List.mem_singleton] at h4
            subst h4
            rfl
          · rw [List.mem_singleton] at h4
            subst h4
            simp [Event.touches, beq_eq_false_iff_ne.mpr hner]
        constructor
        · rintro ⟨e, he, ht⟩
          rw [hall e he] at ht
          exact absurd ht (by simp)
        · exact fun m hs => ⟨⟨.repoSyncError r m0, rfl⟩, hall⟩
      · rcases u with ⟨⟩
        obtain ⟨B, hB⟩ :=
          run_from_reference_mirror_ok env args (det.getD k) v repo r hms
        constructor
        · intro _hex
          refine ⟨rfl,
            tx ++ ([Event.getCrosDir (if k then args.arc else args.cros)] ++
              (tp ++ [Event.getReferenceRepo args.reference])), B, ?_, ?_⟩
          · rw [hB]
            simp
          · intro e he
            rcases List.mem_append.mp he with h1 | h1
            · exact htx e h1
            rcases List.mem_append.mp h1 with h2 | h2
            · rw [List.mem_singleton] at h2
              subst h2
              rfl
            rcases List.mem_append.mp h2 with h3 | h3
            · exact htp e h3
            · rw [List.mem_singleton] at h3
              subst h3
              rfl
        · intro m hs
          exact absurd hs (by simp)

/-- Witness for C3 on the concrete failing mirror. -/
theorem C3_mirror_before_target_and_fatal_witness :
    (∃ er, (run mirrorFailEnv argsCrosRef).1 = .error er) ∧
    ∀ e ∈ (run mirrorFailEnv argsCrosRef).2, e.touches "/t" = false :=
  (C3_mirror_before_target_and_fatal mirrorFailEnv argsCrosRef false "/t"
    "/mirror" rfl rfl rfl (by decide)).2 "mirror sync failed" rfl

/-- C5: the claim that the Type Detector inspects the filesystem before
the Version Resolver runs is false on a concrete run, whose very first
external event is the version lookup while the detector's directory
check only happens later. -/
theorem C5_counterexample :
    ¬ precedes (run okEnv argsCros).2 Event.isDetector Event.isResolver := by
  intro h
  obtain ⟨A, B, happ, hA, hB⟩ := h
  have htr : (run okEnv argsCros).2 =
      [.lookupFullVersion "13816.10.0" "eve", .getCrosDir (some "/t"),
       .isDirCheck "/t", .pathExistsCheck "/t/Android.bp",
       .queryCrosVersion "/t", .readDir "/t", .getReferenceRepo none,
       .setupCrosRepo "/t" "15437.0.0-13816.10.0" none,
       .repoSync "/t" false false] := rfl
  rw [htr] at happ
  rcases A with _ | ⟨a, A2⟩
  · simp only [List.nil_append] at happ
    have hd := hB (.isDirCheck "/t") (by rw [← happ]; simp)
    simp [Event.isDetector] at hd
  · simp only [List.cons_append] at happ
    injection happ with h1 h2
    have hr := hA a (by simp)
    rw [← h1] at hr
    simp [Event.isResolver] at hr

/-- C5 (amended): processing is ordered resolver-first: in every run all
Version-Resolver events precede all Type-Detector events, and all
Type-Detector events precede all Sync-Executor events — the flow is
user inputs → Version Resolver → Type Detector → Reference Mirror
Coordinator → Sync Executor. -/
theorem C5_resolver_before_detector_flow (env : Env) (args : Args) :
    precedes (run env args).2 Event.isResolver Event.isDetector ∧
    precedes (run env args).2 Event.isDetector Event.isExecutor := by
  rcases hsel : kind_selected args with _ | k
  · rw [run_not_selected env args hsel]
    exact ⟨⟨[], [], rfl, by simp, by simp⟩, ⟨[], [], rfl, by simp, by simp⟩⟩
  · rw [run_selected env args k hsel]
    rcases hx : extract_version env args k with ⟨xres, tx⟩
    have htxd : ∀ e ∈ tx, e.isDetector = false := by
      have h1 := extract_trace_not_detector env args k
      rw [hx] at h1
      exact h1
    have htxe : ∀ e ∈ tx, e.isExecutor = false := by
      have h1 := extract_trace_not_executor env args k
      rw [hx] at h1
      exact h1
    rcases xres with e0 | v
    · rw [run_after_kind_err env args k e0 tx hx]
      exact ⟨⟨tx, [], by simp, htxd, by simp⟩, ⟨tx, [], by simp, htxe, by simp⟩⟩
    · rcases hdir : env.getCrosDirUnchecked
          (if k then args.arc else args.cros) with m | repo
      · rw [run_after_kind_ok env args k v tx hx,
          run_from_version_err env args k v m hdir]
        refine ⟨⟨tx ++ [Event.getCrosDir (if k then args.arc else args.cros)],
            [], by simp, ?_, by simp⟩,
          ⟨tx ++ [Event.getCrosDir (if k then args.arc else args.cros)],
            [], by simp, ?_, by simp⟩⟩
        · intro e he
          rcases List.mem_append.mp he with h1 | h1
          · exact htxd e h1
          · rw [List.mem_singleton] at h1
            subst h1
            rfl
        · intro e he
          rcases List.mem_append.mp he with h1 | h1
          · exact htxe e h1
          · rw [List.mem_singleton] at h1
            subst h1
            rfl
      · rcases hp : prepare_repo_paths env repo with ⟨pres, tp⟩
        have htpd : ∀ e ∈ tp, e.isDetector = true := by
          have h1 := prepare_repo_paths_trace env repo
          rw [hp] at h1
          exact h1
        rcases pres with pe | det
        · rw [run_after_kind_ok env args k v tx hx,
            run_from_version_ok env args k v repo hdir,
            run_from_repo_err env args k v repo pe tp hp]
          refine ⟨⟨tx ++ [Event.getCrosDir (if k then args.arc else args.cros)],
              tp, by simp, ?_, fun e he => detector_not_resolver e (htpd e he)⟩,
            ⟨tx ++ ([Event.getCrosDir (if k then args.arc else args.cros)] ++ tp),
              [], by simp, ?_, by simp⟩⟩
          · intro e he
            rcases List.mem_append.mp he with h1 | h1
            · exact htxd e h1
            · rw [List.mem_singleton] at h1
              subst h1
              rfl
          · intro e he
            rcases List.mem_append.mp he with h1 | h1
            · exact htxe e h1
            rcases List.mem_append.mp h1 with h2 | h2
            · rw [List.mem_singleton] at h2
              subst h2
              rfl
            · exact detector_not_executor e (htpd e h2)
        · rcases href : env.getReferenceRepo args.reference with m | ref
          · rw [run_after_kind_ok env args k v tx hx,
              run_from_version_ok env args k v repo hdir,
              run_from_repo_ok env args k v repo det tp hp,
              run_from_prepared_err env args (det.getD k) v repo m href]
            refine ⟨⟨tx ++ [Event.getCrosDir (if k then args.arc else args.cros)],
                tp ++ [Event.getReferenceRepo args.reference], by simp, ?_, ?_⟩,
              ⟨tx ++ ([Event.getCrosDir (if k then args.arc else args.cros)] ++
                (tp ++ [Event.getReferenceRepo args.reference])),
                [], by simp, ?_, by simp⟩⟩
            · intro e he
              rcases List.mem_append.mp he with h1 | h1
              · exact htxd e h1
              · rw [List.mem_singleton] at h1
                subst h1
                rfl
            · intro e he
              rcases List.mem_append.mp he with h1 | h1
              · exact detector_not_resolver e (htpd e h1)
              · rw [List.mem_singleton] at h1
                subst h1
                rfl
            · intro e he
              rcases List.mem_append.mp he with h1 | h1
              · exact htxe e h1
              rcases List.mem_append.mp h1 with h2 | h2
              · rw [List.mem_singleton] at h2
                subst h2
                rfl
              rcases List.mem_append.mp h2 with h3 | h3
              · exact detector_not_executor e (htpd e h3)
              · rw [List.mem_singleton] at h3
                subst h3
                rfl
          · rw [run_after_kind_ok env args k v tx hx,
              run_from_version_ok env args k v repo hdir,
              run_from_repo_ok env args k v repo det tp hp,
              run_from_prepared_ref env args (det.getD k) v repo ref href]
            have hRe : ∀ e ∈
                (run_from_reference env args (det.getD k) v repo ref).2,
                e.isExecutor = true :=
              run_from_reference_trace env args (det.getD k) v repo ref
            refine ⟨⟨tx ++ [Event.getCrosDir (if k then args.arc else args.cros)],
                tp ++ ([Event.getReferenceRepo args.reference] ++
                  (run_from_reference env args (det.getD k) v repo ref).2),
                by simp, ?_, ?_⟩,
              ⟨tx ++ ([Event.getCrosDir (if k then args.arc else args.cros)] ++
                (tp ++ [Event.getReferenceRepo args.reference])),
                (run_from_reference env args (det.getD k) v repo ref).2,
                by simp, ?_, ?_⟩⟩
            · intro e he
              rcases List.mem_append.mp he with h1 | h1
              · exact htxd e h1
              · rw [List.mem_singleton] at h1
                subst h1
                rfl
            · intro e he
              rcases List.mem_append.mp he with h1 | h1
              · exact detector_not_resolver e (htpd e h1)
              rcases List.mem_append.mp h1 with h2 | h2
              · rw [List.mem_singleton] at h2
                subst h2
                rfl
              · exact executor_not_resolver e (hRe e h2)
            · intro e he
              rcases List.mem_append.mp he with h1 | h1
              · exact htxe e h1
              rcases List.mem_append.mp h1 with h2 | h2
              · rw [List.mem_singleton] at h2
                subst h2
                rfl
              rcases List.mem_append.mp h2 with h3 | h3
              · exact detector_not_executor e (htpd e h3)
              · rw [List.mem_singleton] at h3
                subst h3
                rfl
            · exact fun e he => executor_not_detector e (hRe e he)

/-- Witness for C10 on the concrete environment where a file occupies the
target path. -/
theorem C10_non_directory_creation_error_witness :
    prepare_repo_paths fileInTheWayEnv "/t" =
      (.error (.createDirError "File exists (os error 17)"),
       [.isDirCheck "/t", .createDirAll "/t"]) ∧
    (run fileInTheWayEnv argsCros).1 =
      .error (.createDirError "File exists (os error 17)") :=
  ⟨(C10_non_directory_creation_error fileInTheWayEnv "/t"
      "File exists (os error 17)" rfl rfl).1,
   (C10_non_directory_creation_error fileInTheWayEnv "/t"
      "File exists (os error 17)" rfl rfl).2.2.2 argsCros false
      "15437.0.0-13816.10.0" [.lookupFullVersion "13816.10.0" "eve"]
      rfl rfl rfl⟩

end Lium
